import Mathlib

/-!
Verification development for the databot infrastructure-discovery layer.

This file gives a shallow embedding of the resolution logic of the
databot repository and proves properties of it:

* `src/databot/config.py` — terraform state file search and bucket-name
  extraction (`DatabotConfig._find_state_file`, `DatabotConfig.get_bucket_names`);
* `src/databot/storage/__init__.py` — bucket selection for an environment
  (`storage`);
* `src/databot/neondb/client.py` — connection-string discovery and the
  query-dispatch guard of `NeonClient`;
* `src/databot/core/state_loader.py` — resource grouping and the typed
  accessors of `StateLoader`.

Python dictionaries are modelled as association lists in insertion order;
Python string operations (`in`, `.lower()`, `.upper()`) are modelled by
executable functions on character lists; `os.environ` and the filesystem
are modelled as explicit snapshots passed to each function.
-/

namespace Databot

set_option maxRecDepth 16384

/-! ### Python string primitives -/

/-- Model of the Python `str.upper()` method (ASCII letters upper-cased,
every other character unchanged). -/
def pyUpper (s : String) : String := ⟨s.data.map Char.toUpper⟩

/-- Model of the Python `str.lower()` method (ASCII letters lower-cased,
every other character unchanged). -/
def pyLower (s : String) : String := ⟨s.data.map Char.toLower⟩

/-- `charsStartWith hay sub` is true when `sub` is an initial segment of `hay`. -/
def charsStartWith : List Char → List Char → Bool
  | _, [] => true
  | [], _ :: _ => false
  | c :: cs, d :: ds => c == d && charsStartWith cs ds

/-- `charsContain hay sub` is true when `sub` occurs contiguously inside `hay`. -/
def charsContain : List Char → List Char → Bool
  | [], sub => charsStartWith [] sub
  | c :: cs, sub => charsStartWith (c :: cs) sub || charsContain cs sub

/-- Model of the Python substring test `sub in hay`. -/
def strContains (hay sub : String) : Bool := charsContain hay.data sub.data

/-- Truthiness of a Python value modelled as `Option String`:
`None` (or a missing key) and the empty string are falsy. -/
def pyTruthy : Option String → Bool
  | none => false
  | some s => s ≠ ""

/-- Lookup in a Python dictionary modelled as an association list. -/
def lookupAssoc {β : Type} (m : List (String × β)) (k : String) : Option β :=
  (m.find? (fun kv => kv.1 == k)).map (fun kv => kv.2)

/-! ### Terraform outputs and bucket extraction

From `DatabotConfig` in `src/databot/config.py`.  A terraform output record
is a JSON object whose `value` field carries the exported value; the record
may lack the field (or carry `null`), modelled by `none`. -/

/-- One record of the `outputs` map of a terraform state document:
only the `value` field matters to the resolver. -/
structure TfOutput where
  value : Option String
deriving DecidableEq, Repr

/-- `DatabotConfig.get_bucket_names`: the sub-map of the outputs whose key
contains `"bucket"` case-insensitively and whose `value` field is truthy. -/
def getBucketNames (outputs : List (String × TfOutput)) : List (String × String) :=
  outputs.filterMap (fun kv =>
    if strContains (pyLower kv.1) "bucket" then
      match kv.2.value with
      | some v => if v = "" then none else some (kv.1, v)
      | none => none
    else none)

/-- Result of the bucket-resolution pipeline of `storage` in
`src/databot/storage/__init__.py`, after the state document has been
loaded.  `selected name fallbackWarned` records the chosen bucket name and
whether the non-environment-specific fallback warning was emitted. -/
inductive StorageResult where
  | noBuckets (msg : String)
  | selected (bucketName : String) (fallbackWarned : Bool)
deriving DecidableEq, Repr

/-- The bucket-selection steps of `storage(environment)`: extract the
bucket candidates from the outputs, fail when there are none, otherwise
take the first candidate whose key contains the environment name
(case-insensitively) and fall back to the first candidate, with a warning,
when no key matches. -/
def storageResolve (environment : String) (outputs : List (String × TfOutput)) :
    StorageResult :=
  match getBucketNames outputs with
  | [] => .noBuckets ("No storage buckets found in terraform state for " ++
      environment ++ " environment")
  | c :: cs =>
    let matched : Option String :=
      ((c :: cs).find? (fun kv =>
        strContains (pyLower kv.1) (pyLower environment))).map (fun kv => kv.2)
    match matched with
    | some v => if v = "" then .selected c.2 true else .selected v false
    | none => .selected c.2 true

example :
    storageResolve "dev"
      [("dev_bucket_name", ⟨some "x"⟩), ("prod_bucket_name", ⟨some "y"⟩)] =
    .selected "x" false := by decide

example :
    storageResolve "staging" [("bucket_main", ⟨some "z"⟩)] =
    .selected "z" true := by decide

example :
    storageResolve "dev" [("data_bucket", ⟨some ""⟩), ("bucket_two", ⟨none⟩)] =
    .noBuckets "No storage buckets found in terraform state for dev environment" := by
  decide

/-! ### Terraform state-file search

From `DatabotConfig.__init__` and `DatabotConfig._find_state_file` in
`src/databot/config.py`.  The filesystem is modelled as the list of paths
that exist. -/

/-- A filesystem snapshot: the paths that exist. -/
abbrev FS := List String

/-- `path.exists()` over the snapshot. -/
def pathExists (fs : FS) (p : String) : Bool := fs.contains p

/-- The `search_paths` list of `DatabotConfig._find_state_file` (the
environment-specific entry appears twice, exactly as in the source). -/
def searchPaths (environment : String) : List String :=
  ["terraform.tfstate",
   "terraform/environments/" ++ environment ++ "/terraform.tfstate",
   "terraform/environments/" ++ environment ++ "/terraform.tfstate",
   "terraform/live/production/terraform.tfstate"]

/-- `DatabotConfig._find_state_file`: the first search path that exists. -/
def findStateFile (environment : String) (fs : FS) : Option String :=
  (searchPaths environment).find? (pathExists fs)

/-- The `state_file or self._find_state_file()` assignment of
`DatabotConfig.__init__`: a truthy caller-supplied path is used as-is
(no existence check), otherwise the search runs. -/
def resolveStateFile (callerPath : Option String) (environment : String)
    (fs : FS) : Option String :=
  match callerPath with
  | some p => if p = "" then findStateFile environment fs else some p
  | none => findStateFile environment fs

/-- Modelled from the words of the specification (section 4.2), for
comparison with `resolveStateFile`: try the caller-supplied path and then
the fixed candidates in order, and let the first path that exists on the
filesystem win; report no path when none exists. -/
def claimedStateFileSearch (callerPath : Option String) (environment : String)
    (fs : FS) : Option String :=
  (callerPath.toList ++
    ["terraform.tfstate",
     "terraform/environments/" ++ environment ++ "/terraform.tfstate",
     "terraform/live/production/terraform.tfstate"]).find? (pathExists fs)

/-! ### Neon connection-string discovery

From `NeonClient._discover_connection_string` and
`NeonClient.connection_string` in `src/databot/neondb/client.py`.
`os.environ` is modelled as an association-list snapshot, and each of the
three candidate config files as absent, unparseable, or a parsed JSON
object mapping project names to either a scalar connection string or a
`database name to connection string` object. -/

/-- A snapshot of `os.environ`. -/
abbrev EnvSnap := List (String × String)

/-- `key in os.environ` / `os.environ[key]` over the snapshot. -/
def envGet (env : EnvSnap) (k : String) : Option String := lookupAssoc env k

/-- The project-specific variable name
`f"NEON_{self.project_name.upper()}_{self.database_name.upper()}"`. -/
def envKey (projectName databaseName : String) : String :=
  "NEON_" ++ pyUpper projectName ++ "_" ++ pyUpper databaseName

/-- The value a config file associates to a project name: either a scalar
connection string or a mapping from database names to connection strings. -/
inductive ConfigVal where
  | str (s : String)
  | obj (m : List (String × String))
deriving DecidableEq, Repr

/-- One candidate config file: missing from disk, present but not valid
JSON, or parsed into a top-level object. -/
inductive ConfigFile where
  | absent
  | unparseable
  | parsed (m : List (String × ConfigVal))
deriving DecidableEq, Repr

/-- The three candidate config files of `_discover_connection_string`, in
scan order: `~/.config/databot/neon.json`, `./.neon.json`, `./neon.json`. -/
structure ConfigFS where
  userConfig : ConfigFile
  dotNeon : ConfigFile
  neonJson : ConfigFile
deriving DecidableEq, Repr

/-- The `config_paths` list, in scan order. -/
def configCandidates (fs : ConfigFS) : List ConfigFile :=
  [fs.userConfig, fs.dotNeon, fs.neonJson]

/-- The per-file body of the config-file loop of
`_discover_connection_string`: an absent file is not opened, an
unparseable file is logged and skipped, and in a parsed file the project
key is looked up; a mapping is indexed by the database name and a scalar
is used directly; a falsy result falls through to the next candidate. -/
def fileLookup (projectName databaseName : String) : ConfigFile → Option String
  | .absent => none
  | .unparseable => none
  | .parsed m =>
    match lookupAssoc m projectName with
    | none => none
    | some (.str s) => if s = "" then none else some s
    | some (.obj pm) =>
      match lookupAssoc pm databaseName with
      | none => none
      | some c => if c = "" then none else some c

/-- The config-file path named in the failure message of
`_discover_connection_string`. -/
def userConfigPathStr : String := "~/.config/databot/neon.json"

/-- The message of the `RuntimeError` raised when discovery fails (the
`NotFoundError` of the specification error taxonomy). -/
def notFoundMsg (projectName databaseName : String) : String :=
  "Could not discover connection string for project \x27" ++ projectName ++
    "\x27 and database \x27" ++ databaseName ++
    "\x27. Set environment variable " ++ envKey projectName databaseName ++
    " or NEON_CONNECTION_STRING, or create a config file at " ++
    userConfigPathStr

/-- Discovery failure: the `RuntimeError` raised at the end of
`_discover_connection_string`, which the specification classifies as
`NotFoundError`. -/
inductive DiscoveryError where
  | notFound (msg : String)
deriving DecidableEq, Repr

deriving instance DecidableEq for Except

/-- `NeonClient._discover_connection_string`: project-specific environment
variable, then `NEON_CONNECTION_STRING`, then the config-file scan, then
the actionable failure. -/
def discoverConnectionString (projectName databaseName : String)
    (env : EnvSnap) (fs : ConfigFS) : Except DiscoveryError String :=
  match envGet env (envKey projectName databaseName) with
  | some v => .ok v
  | none =>
    match envGet env "NEON_CONNECTION_STRING" with
    | some v => .ok v
    | none =>
      match (configCandidates fs).findSome? (fileLookup projectName databaseName) with
      | some v => .ok v
      | none => .error (.notFound (notFoundMsg projectName databaseName))

/-- The `NeonClient.connection_string` property: a truthy explicitly
supplied connection string is returned as-is, otherwise discovery runs. -/
def connectionString (explicitCS : Option String) (projectName databaseName : String)
    (env : EnvSnap) (fs : ConfigFS) : Except DiscoveryError String :=
  if pyTruthy explicitCS then .ok (explicitCS.getD "")
  else discoverConnectionString projectName databaseName env fs

example :
    discoverConnectionString "databot" "neondb"
      [("NEON_CONNECTION_STRING", "foo")] ⟨.absent, .absent, .absent⟩ =
    .ok "foo" := by decide

example :
    discoverConnectionString "databot" "neondb"
      [("NEON_DATABOT_NEONDB", "bar"), ("NEON_CONNECTION_STRING", "foo")]
      ⟨.absent, .absent, .absent⟩ = .ok "bar" := by decide

example :
    discoverConnectionString "proj" "dbA" []
      ⟨.parsed [("proj", .obj [("dbA", "cs1")])], .absent, .absent⟩ =
    .ok "cs1" := by decide

example :
    discoverConnectionString "proj" "dbB" []
      ⟨.parsed [("proj", .obj [("dbA", "cs1")])], .absent, .absent⟩ =
    .error (.notFound (notFoundMsg "proj" "dbB")) := by decide

/-! ### NeonClient query dispatch

From the query methods and `close` of `NeonClient` in
`src/databot/neondb/client.py`.  The driver-level pool and connection
objects are opaque handles; only whether they are set matters to the
dispatch guard. -/

/-- The connection state of a `NeonClient`: the `_pool` and `_conn`
fields, each `None` or an opaque live handle. -/
structure NeonConn where
  pool : Option Unit
  conn : Option Unit
deriving DecidableEq, Repr

/-- Where a query method routes, or the error it raises when neither a
pool nor a connection is set. -/
inductive QueryOutcome where
  | delegatedToPool
  | delegatedToConn
  | notConnectedError (msg : String)
deriving DecidableEq, Repr

/-- The exact message of the `RuntimeError` raised by every query method
when the client is not connected. -/
def notConnectedMsg : String := "Not connected. Call connect() or use context manager."

/-- `NeonClient.fetch`: pool first, then single connection, else fail fast. -/
def fetch (c : NeonConn) : QueryOutcome :=
  match c.pool with
  | some _ => .delegatedToPool
  | none =>
    match c.conn with
    | some _ => .delegatedToConn
    | none => .notConnectedError notConnectedMsg

/-- `NeonClient.fetchrow`: same guard as `fetch`. -/
def fetchrow (c : NeonConn) : QueryOutcome :=
  match c.pool with
  | some _ => .delegatedToPool
  | none =>
    match c.conn with
    | some _ => .delegatedToConn
    | none => .notConnectedError notConnectedMsg

/-- `NeonClient.fetchval`: same guard as `fetch`. -/
def fetchval (c : NeonConn) : QueryOutcome :=
  match c.pool with
  | some _ => .delegatedToPool
  | none =>
    match c.conn with
    | some _ => .delegatedToConn
    | none => .notConnectedError notConnectedMsg

/-- `NeonClient.execute`: same guard as `fetch`. -/
def execute (c : NeonConn) : QueryOutcome :=
  match c.pool with
  | some _ => .delegatedToPool
  | none =>
    match c.conn with
    | some _ => .delegatedToConn
    | none => .notConnectedError notConnectedMsg

/-- `NeonClient.executemany`: same guard as `fetch`. -/
def executemany (c : NeonConn) : QueryOutcome :=
  match c.pool with
  | some _ => .delegatedToPool
  | none =>
    match c.conn with
    | some _ => .delegatedToConn
    | none => .notConnectedError notConnectedMsg

/-- `NeonClient.close`: closes whatever is open and clears both fields. -/
def closeConn (_c : NeonConn) : NeonConn := ⟨none, none⟩

/-! ### StateLoader resources

From `StateLoader` in `src/databot/core/state_loader.py`.  A resource
entry of the state document carries a `type`, a `name`, possibly an
`address`, and a list of instances, each with an `attributes` object.
Attribute values are modelled as strings (the resolver only reads the
well-known string attributes `name` and `email`). -/

/-- One element of the `instances` list of a resource entry. -/
structure TfInstance where
  attributes : List (String × String)
deriving DecidableEq, Repr

/-- One element of the top-level `resources` list.  A missing key is
modelled by `none` (for `type`, `name`, `address`) or `[]` (for
`instances`). -/
structure ResourceBlock where
  type : Option String
  name : Option String
  address : Option String
  instances : List TfInstance
deriving DecidableEq, Repr

/-- Lookup in a dictionary keyed by `Option String` (the type key of a
resource entry can be missing). -/
def lookupGroups {β : Type} (m : List (Option String × β)) (k : Option String) :
    Option β :=
  (m.find? (fun kv => kv.1 == k)).map (fun kv => kv.2)

/-- `resources[rtype].append(resource)` on the grouping dictionary:
append to the list at an existing key, else add a new key at the end. -/
def addToGroups (groups : List (Option String × List ResourceBlock))
    (k : Option String) (r : ResourceBlock) :
    List (Option String × List ResourceBlock) :=
  match groups with
  | [] => [(k, [r])]
  | (k2, rs) :: rest =>
    if k2 == k then (k2, rs ++ [r]) :: rest else (k2, rs) :: addToGroups rest k r

/-- The grouping loop of `StateLoader.get_resources`: a dictionary from
declared type to the resource entries of that type, in insertion order. -/
def groupResources (blocks : List ResourceBlock) :
    List (Option String × List ResourceBlock) :=
  blocks.foldl (fun acc r => addToGroups acc r.type r) []

/-- `StateLoader.get_resource_instances`: the entries grouped under the
given type, or the empty list. -/
def getResourceInstances (blocks : List ResourceBlock) (resourceType : String) :
    List ResourceBlock :=
  (lookupGroups (groupResources blocks) (some resourceType)).getD []

/-- `StateLoader.find_resources_by_name`: among the entries of the given
type, those whose `name` or `address` equals the given name. -/
def findResourcesByName (blocks : List ResourceBlock) (resourceType nm : String) :
    List ResourceBlock :=
  (getResourceInstances blocks resourceType).filter
    (fun inst => inst.name == some nm || inst.address == some nm)

/-- Assignment `d[k] = v` on a Python dictionary modelled as an
association list: replace the value at an existing key in place, else
append the new key. -/
def dictInsert {β : Type} (m : List (String × β)) (k : String) (v : β) :
    List (String × β) :=
  match m with
  | [] => [(k, v)]
  | (k2, v2) :: rest =>
    if k2 == k then (k, v) :: rest else (k2, v2) :: dictInsert rest k v

/-- The inner step of `StateLoader.get_google_storage_buckets`: read the
`name` attribute of one instance and, when it is truthy, store the
attributes of the instance under that name. -/
def insertBucketInstance (buckets : List (String × List (String × String)))
    (inst : TfInstance) : List (String × List (String × String)) :=
  match lookupAssoc inst.attributes "name" with
  | some nm => if nm = "" then buckets else dictInsert buckets nm inst.attributes
  | none => buckets

/-- The per-entry step of `get_google_storage_buckets`: a resource entry
with a falsy `instances` list is skipped, otherwise its instances are
processed in order. -/
def addBucketInsts (buckets : List (String × List (String × String)))
    (block : ResourceBlock) : List (String × List (String × String)) :=
  if block.instances.isEmpty then buckets
  else block.instances.foldl insertBucketInstance buckets

/-- `StateLoader.get_google_storage_buckets`: the dictionary from bucket
name to instance attributes over every instance of the
`google_storage_bucket` resource type. -/
def getGoogleStorageBuckets (blocks : List ResourceBlock) :
    List (String × List (String × String)) :=
  (getResourceInstances blocks "google_storage_bucket").foldl addBucketInsts []

example :
    getGoogleStorageBuckets
      [{ type := some "google_storage_bucket", name := some "buckets",
         address := none,
         instances := [⟨[("name", "a")]⟩, ⟨[("name", "b")]⟩] }] =
    [("a", [("name", "a")]), ("b", [("name", "b")])] := by decide

example :
    findResourcesByName
      [{ type := some "t", name := some "r1", address := none, instances := [] },
       { type := some "t", name := some "r2", address := none, instances := [] },
       { type := some "u", name := some "r1", address := none, instances := [] }]
      "t" "r1" =
    [{ type := some "t", name := some "r1", address := none, instances := [] }] := by
  decide

/-! ### Helper lemmas -/

theorem data_append (s t : String) : (s ++ t).data = s.data ++ t.data := by
  cases s; cases t; rfl

theorem charsStartWith_append (b e : List Char) :
    charsStartWith (b ++ e) b = true := by
  induction b with
  | nil => simp [charsStartWith]
  | cons c cs ih => simp [charsStartWith, ih]

theorem charsContain_of_startsWith {hay sub : List Char}
    (h : charsStartWith hay sub = true) : charsContain hay sub = true := by
  cases hay with
  | nil => exact h
  | cons c cs => simp [charsContain, h]

theorem charsContain_append (a b e : List Char) :
    charsContain (a ++ (b ++ e)) b = true := by
  induction a with
  | nil => exact charsContain_of_startsWith (charsStartWith_append b e)
  | cons x xs ih => simp [charsContain, ih]

theorem strContains_decomp (hay sub : String) (x z : List Char)
    (h : hay.data = x ++ (sub.data ++ z)) : strContains hay sub = true := by
  unfold strContains
  rw [h]
  exact charsContain_append x sub.data z

/-! ### C2: environment-variable precedence in connection-string discovery -/

/-- C2: connection-string discovery first consults the project-specific
variable `NEON_<PROJECT_UPPER>_<DATABASE_UPPER>` and returns its value
when set; only when that variable is absent does it consult
`NEON_CONNECTION_STRING`; when either variable is set the result does not
depend on the config files. -/
theorem c2_env_precedence (projectName databaseName : String) (env : EnvSnap)
    (fs fs2 : ConfigFS) :
    (∀ v, envGet env (envKey projectName databaseName) = some v →
      discoverConnectionString projectName databaseName env fs = .ok v) ∧
    (envGet env (envKey projectName databaseName) = none →
      ∀ v, envGet env "NEON_CONNECTION_STRING" = some v →
        discoverConnectionString projectName databaseName env fs = .ok v) ∧
    (((envGet env (envKey projectName databaseName)).isSome ∨
        (envGet env "NEON_CONNECTION_STRING").isSome) →
      discoverConnectionString projectName databaseName env fs =
        discoverConnectionString projectName databaseName env fs2) := by
  refine ⟨?_, ?_, ?_⟩
  · intro v hv
    simp [discoverConnectionString, hv]
  · intro h1 v hv
    simp [discoverConnectionString, h1, hv]
  · intro h
    rcases h with h | h
    · obtain ⟨v, hv⟩ := Option.isSome_iff_exists.mp h
      simp [discoverConnectionString, hv]
    · obtain ⟨v, hv⟩ := Option.isSome_iff_exists.mp h
      cases h1 : envGet env (envKey projectName databaseName) with
      | some w => simp [discoverConnectionString, h1]
      | none => simp [discoverConnectionString, h1, hv]

/-- Witness for C2: with `NEON_CONNECTION_STRING=foo` set and no
project-specific variable, discovery returns `foo`. -/
theorem c2_env_precedence_witness :
    discoverConnectionString "databot" "neondb"
      [("NEON_CONNECTION_STRING", "foo")] ⟨.absent, .absent, .absent⟩ =
    .ok "foo" :=
  (c2_env_precedence "databot" "neondb" [("NEON_CONNECTION_STRING", "foo")]
    ⟨.absent, .absent, .absent⟩ ⟨.absent, .absent, .absent⟩).2.1
    (by decide) "foo" (by decide)

/-! ### C8: query operations fail fast when not connected -/

/-- C8: on a client state with neither a single connection nor a pool —
in particular the state `close()` leaves behind — every query operation
(`fetch`, `fetchrow`, `fetchval`, `execute`, `executemany`) raises the
explicit not-connected error instead of delegating. -/
theorem c8_not_connected (c : NeonConn) (h1 : c.pool = none)
    (h2 : c.conn = none) :
    fetch c = .notConnectedError notConnectedMsg ∧
    fetchrow c = .notConnectedError notConnectedMsg ∧
    fetchval c = .notConnectedError notConnectedMsg ∧
    execute c = .notConnectedError notConnectedMsg ∧
    executemany c = .notConnectedError notConnectedMsg ∧
    ∀ c2 : NeonConn, (closeConn c2).pool = none ∧ (closeConn c2).conn = none := by
  refine ⟨?_, ?_, ?_, ?_, ?_, ?_⟩ <;>
    simp [fetch, fetchrow, fetchval, execute, executemany, closeConn, h1, h2]

/-- Witness for C8: the five query operations all report the
not-connected error on the fresh unconnected state. -/
theorem c8_not_connected_witness :
    fetch ⟨none, none⟩ = .notConnectedError notConnectedMsg ∧
    fetchrow ⟨none, none⟩ = .notConnectedError notConnectedMsg ∧
    fetchval ⟨none, none⟩ = .notConnectedError notConnectedMsg ∧
    execute ⟨none, none⟩ = .notConnectedError notConnectedMsg ∧
    executemany ⟨none, none⟩ = .notConnectedError notConnectedMsg ∧
    ∀ c2 : NeonConn, (closeConn c2).pool = none ∧ (closeConn c2).conn = none :=
  c8_not_connected ⟨none, none⟩ rfl rfl

/-! ### C9: an explicit connection string short-circuits discovery -/

/-- C9: when the client is constructed with an explicit non-empty
connection string, the `connection_string` property returns exactly that
string, and the result is identical under any two environment-variable
and config-file states — discovery is never consulted. -/
theorem c9_explicit_cs_no_discovery (s : String) (h : s ≠ "")
    (projectName databaseName : String) (env1 env2 : EnvSnap)
    (fs1 fs2 : ConfigFS) :
    connectionString (some s) projectName databaseName env1 fs1 = .ok s ∧
    connectionString (some s) projectName databaseName env1 fs1 =
      connectionString (some s) projectName databaseName env2 fs2 := by
  constructor <;> simp [connectionString, pyTruthy, h]

/-- Witness for C9: an explicit connection string is returned unchanged
even when the environment carries a different `NEON_CONNECTION_STRING`
and a config file carries yet another value. -/
theorem c9_explicit_cs_no_discovery_witness :
    connectionString (some "postgresql://u@h/db") "databot" "neondb"
      [("NEON_CONNECTION_STRING", "other")]
      ⟨.parsed [("databot", .str "third")], .absent, .absent⟩ =
      .ok "postgresql://u@h/db" ∧
    connectionString (some "postgresql://u@h/db") "databot" "neondb"
      [("NEON_CONNECTION_STRING", "other")]
      ⟨.parsed [("databot", .str "third")], .absent, .absent⟩ =
      connectionString (some "postgresql://u@h/db") "databot" "neondb" []
        ⟨.absent, .absent, .absent⟩ :=
  c9_explicit_cs_no_discovery "postgresql://u@h/db" (by decide) "databot"
    "neondb" [("NEON_CONNECTION_STRING", "other")] []
    ⟨.parsed [("databot", .str "third")], .absent, .absent⟩
    ⟨.absent, .absent, .absent⟩

/-! ### C3: the config-file scan -/

/-- C3: when neither environment variable is set, discovery scans the
fixed ordered candidate files — user config directory file, then
`./.neon.json`, then `./neon.json` — and the first file yielding a
non-empty value wins; an absent or unparseable file yields nothing and is
skipped without failing the scan; in a parsed file the project key is
looked up, a mapping value is indexed by the database name (yielding
nothing when the database is missing), and a scalar value is used
directly regardless of the database name. -/
theorem c3_config_file_scan (projectName databaseName : String)
    (env : EnvSnap) (fs : ConfigFS)
    (h1 : envGet env (envKey projectName databaseName) = none)
    (h2 : envGet env "NEON_CONNECTION_STRING" = none) :
    (discoverConnectionString projectName databaseName env fs =
      match fileLookup projectName databaseName fs.userConfig with
      | some v => .ok v
      | none =>
        match fileLookup projectName databaseName fs.dotNeon with
        | some v => .ok v
        | none =>
          match fileLookup projectName databaseName fs.neonJson with
          | some v => .ok v
          | none => .error (.notFound (notFoundMsg projectName databaseName))) ∧
    fileLookup projectName databaseName .absent = none ∧
    fileLookup projectName databaseName .unparseable = none ∧
    (∀ m pm, lookupAssoc m projectName = some (.obj pm) →
      fileLookup projectName databaseName (.parsed m) =
        match lookupAssoc pm databaseName with
        | some c => if c = "" then none else some c
        | none => none) ∧
    (∀ m s, lookupAssoc m projectName = some (.str s) →
      fileLookup projectName databaseName (.parsed m) =
        if s = "" then none else some s) := by
  refine ⟨?_, rfl, rfl, ?_, ?_⟩
  · simp only [discoverConnectionString, h1, h2, configCandidates,
      List.findSome?_cons]
    cases hu : fileLookup projectName databaseName fs.userConfig with
    | some v => rfl
    | none =>
      cases hd : fileLookup projectName databaseName fs.dotNeon with
      | some v => rfl
      | none =>
        cases hn : fileLookup projectName databaseName fs.neonJson with
        | some v => rfl
        | none => simp [List.findSome?]
  · intro m pm hm
    simp only [fileLookup, hm]
    cases lookupAssoc pm databaseName <;> rfl
  · intro m s hm
    simp [fileLookup, hm]

/-- Witness for C3: with no environment variables set and only the user
config file `{"proj": {"dbA": "cs1"}}` present, the scan is exactly the
three-file fallthrough; evaluated at `(proj, dbA)` it yields `cs1`, and
at `(proj, dbB)` the same file falls through to the failure. -/
theorem c3_config_file_scan_witness :
    (discoverConnectionString "proj" "dbA" []
        ⟨.parsed [("proj", .obj [("dbA", "cs1")])], .absent, .absent⟩ =
      match fileLookup "proj" "dbA"
          (ConfigFile.parsed [("proj", .obj [("dbA", "cs1")])]) with
      | some v => .ok v
      | none =>
        match fileLookup "proj" "dbA" ConfigFile.absent with
        | some v => .ok v
        | none =>
          match fileLookup "proj" "dbA" ConfigFile.absent with
          | some v => .ok v
          | none => .error (.notFound (notFoundMsg "proj" "dbA"))) ∧
    discoverConnectionString "proj" "dbA" []
        ⟨.parsed [("proj", .obj [("dbA", "cs1")])], .absent, .absent⟩ =
      .ok "cs1" ∧
    discoverConnectionString "proj" "dbB" []
        ⟨.parsed [("proj", .obj [("dbA", "cs1")])], .absent, .absent⟩ =
      .error (.notFound (notFoundMsg "proj" "dbB")) :=
  ⟨(c3_config_file_scan "proj" "dbA" []
      ⟨.parsed [("proj", .obj [("dbA", "cs1")])], .absent, .absent⟩ rfl rfl).1,
   by decide, by decide⟩

/-! ### C4: the discovery failure message is actionable -/

/-- C4: when no environment variable matches and no config file yields a
value, discovery fails with the not-found error whose message contains
the exact project-specific variable name `NEON_<PROJECT_UPPER>_<DATABASE_UPPER>`
and the exact config-file path `~/.config/databot/neon.json` the caller
could create. -/
theorem c4_actionable_failure (projectName databaseName : String)
    (env : EnvSnap) (fs : ConfigFS)
    (h1 : envGet env (envKey projectName databaseName) = none)
    (h2 : envGet env "NEON_CONNECTION_STRING" = none)
    (h3 : (configCandidates fs).findSome?
      (fileLookup projectName databaseName) = none) :
    discoverConnectionString projectName databaseName env fs =
      .error (.notFound (notFoundMsg projectName databaseName)) ∧
    strContains (notFoundMsg projectName databaseName)
      (envKey projectName databaseName) = true ∧
    strContains (notFoundMsg projectName databaseName) userConfigPathStr = true := by
  refine ⟨?_, ?_, ?_⟩
  · simp [discoverConnectionString, h1, h2, h3]
  · refine strContains_decomp _ _
      ("Could not discover connection string for project \x27" ++ projectName ++
        "\x27 and database \x27" ++ databaseName ++
        "\x27. Set environment variable ").data
      (" or NEON_CONNECTION_STRING, or create a config file at " ++
        userConfigPathStr).data ?_
    simp [notFoundMsg, data_append, List.append_assoc]
  · refine strContains_decomp _ _
      ("Could not discover connection string for project \x27" ++ projectName ++
        "\x27 and database \x27" ++ databaseName ++
        "\x27. Set environment variable " ++ envKey projectName databaseName ++
        " or NEON_CONNECTION_STRING, or create a config file at ").data
      ([]) ?_
    simp [notFoundMsg, data_append, List.append_assoc]

/-- Witness for C4: with nothing set and no config file, discovery for
`(databot, neondb)` fails and the message contains `NEON_DATABOT_NEONDB`
and the config path. -/
theorem c4_actionable_failure_witness :
    (discoverConnectionString "databot" "neondb" [] ⟨.absent, .absent, .absent⟩ =
      .error (.notFound (notFoundMsg "databot" "neondb")) ∧
    strContains (notFoundMsg "databot" "neondb") (envKey "databot" "neondb") = true ∧
    strContains (notFoundMsg "databot" "neondb") userConfigPathStr = true) ∧
    envKey "databot" "neondb" = "NEON_DATABOT_NEONDB" :=
  ⟨c4_actionable_failure "databot" "neondb" [] ⟨.absent, .absent, .absent⟩
    rfl rfl rfl, by decide⟩

/-! ### C5: state-file search order -/

/-- C5 counterexample: the claim says the first path that exists wins
across all four candidates including the caller-supplied one, but a
non-empty caller-supplied path is used without an existence check: with
only `terraform.tfstate` existing and a non-existent caller path, the
code keeps the caller path while the claimed search would pick
`terraform.tfstate`. -/
theorem c5_counterexample :
    pathExists ["terraform.tfstate"] "missing.tfstate" = false ∧
    pathExists ["terraform.tfstate"] "terraform.tfstate" = true ∧
    resolveStateFile (some "missing.tfstate") "dev" ["terraform.tfstate"] =
      some "missing.tfstate" ∧
    claimedStateFileSearch (some "missing.tfstate") "dev" ["terraform.tfstate"] =
      some "terraform.tfstate" ∧
    resolveStateFile (some "missing.tfstate") "dev" ["terraform.tfstate"] ≠
      claimedStateFileSearch (some "missing.tfstate") "dev" ["terraform.tfstate"] := by
  decide

/-- C5 (amended): a non-empty caller-supplied path is used unconditionally,
without an existence check; only when no caller path is supplied (or it is
empty) does discovery try `./terraform.tfstate`, then
`terraform/environments/<environment>/terraform.tfstate`, then the fixed
production fallback, the first existing path winning; when none of those
exist, discovery returns no path rather than raising. -/
theorem c5_state_file_search (callerPath : Option String)
    (environment : String) (fs : FS) :
    (∀ p, callerPath = some p → p ≠ "" →
      resolveStateFile callerPath environment fs = some p) ∧
    (callerPath = none ∨ callerPath = some "" →
      resolveStateFile callerPath environment fs =
        (if pathExists fs "terraform.tfstate" then some "terraform.tfstate"
         else if pathExists fs
             ("terraform/environments/" ++ environment ++ "/terraform.tfstate") then
           some ("terraform/environments/" ++ environment ++ "/terraform.tfstate")
         else if pathExists fs "terraform/live/production/terraform.tfstate" then
           some "terraform/live/production/terraform.tfstate"
         else none)) ∧
    (callerPath = none ∨ callerPath = some "" →
      (∀ q ∈ searchPaths environment, pathExists fs q = false) →
      resolveStateFile callerPath environment fs = none) := by
  have hsearch : findStateFile environment fs =
      (if pathExists fs "terraform.tfstate" then some "terraform.tfstate"
       else if pathExists fs
           ("terraform/environments/" ++ environment ++ "/terraform.tfstate") then
         some ("terraform/environments/" ++ environment ++ "/terraform.tfstate")
       else if pathExists fs "terraform/live/production/terraform.tfstate" then
         some "terraform/live/production/terraform.tfstate"
       else none) := by
    simp only [findStateFile, searchPaths, List.find?]
    cases h1 : pathExists fs "terraform.tfstate" <;>
      cases h2 : pathExists fs
        ("terraform/environments/" ++ environment ++ "/terraform.tfstate") <;>
      cases h3 : pathExists fs "terraform/live/production/terraform.tfstate" <;>
      simp
  refine ⟨?_, ?_, ?_⟩
  · intro p hp hne
    subst hp
    simp [resolveStateFile, hne]
  · intro h
    rcases h with h | h <;> subst h <;> simpa [resolveStateFile] using hsearch
  · intro h hall
    have h1 := hall "terraform.tfstate" (by simp [searchPaths])
    have h2 := hall ("terraform/environments/" ++ environment ++ "/terraform.tfstate")
      (by simp [searchPaths])
    have h3 := hall "terraform/live/production/terraform.tfstate"
      (by simp [searchPaths])
    rcases h with h | h <;> subst h <;>
      simp [resolveStateFile, hsearch, h1, h2, h3]

/-- Witness for C5 (amended): with no caller path and only the production
fallback existing, the search returns the production fallback. -/
theorem c5_state_file_search_witness :
    resolveStateFile none "dev" ["terraform/live/production/terraform.tfstate"] =
      some "terraform/live/production/terraform.tfstate" := by
  have h := (c5_state_file_search none "dev"
    ["terraform/live/production/terraform.tfstate"]).2.1 (Or.inl rfl)
  rw [h]
  decide

/-! ### C1 and C10: bucket extraction and selection -/

theorem getBucketNames_value_ne (outputs : List (String × TfOutput)) :
    ∀ kv ∈ getBucketNames outputs, kv.2 ≠ "" := by
  intro kv hkv
  simp only [getBucketNames, List.mem_filterMap] at hkv
  obtain ⟨a, _, hfa⟩ := hkv
  split at hfa
  · cases hv : a.2.value with
    | none => rw [hv] at hfa; simp at hfa
    | some v =>
      rw [hv] at hfa
      by_cases hve : v = ""
      · simp [hve] at hfa
      · simp only [hve, if_false] at hfa
        obtain rfl := Option.some.inj hfa
        exact hve
  · simp at hfa

/-- C1: for a non-empty candidate map extracted from the outputs (keys
containing "bucket" case-insensitively, truthy values), bucket resolution
selects the value of the first entry, in iteration order, whose key
contains the environment name as a case-insensitive substring; when no
key matches, it selects the value of the first entry and emits the
fallback warning. -/
theorem c1_bucket_selection (environment : String)
    (outputs : List (String × TfOutput)) :
    (∀ kv, (getBucketNames outputs).find?
        (fun kv2 => strContains (pyLower kv2.1) (pyLower environment)) = some kv →
      storageResolve environment outputs = .selected kv.2 false) ∧
    (∀ c cs, getBucketNames outputs = c :: cs →
      (c :: cs).find?
        (fun kv2 => strContains (pyLower kv2.1) (pyLower environment)) = none →
      storageResolve environment outputs = .selected c.2 true) := by
  constructor
  · intro kv hkv
    have hmem : kv ∈ getBucketNames outputs := List.mem_of_find?_eq_some hkv
    have hne : kv.2 ≠ "" := getBucketNames_value_ne outputs kv hmem
    cases h : getBucketNames outputs with
    | nil => rw [h] at hkv; simp at hkv
    | cons c cs =>
      rw [h] at hkv
      simp only [storageResolve]
      rw [h]
      simp [hkv, hne]
  · intro c cs h hfind
    simp only [storageResolve]
    rw [h]
    simp [hfind]

/-- Witness for C1: with outputs `dev_bucket_name = x`,
`prod_bucket_name = y` and environment `dev`, resolution selects `x`
without the fallback warning; with only `bucket_main = z` and environment
`staging`, resolution selects `z` with the fallback warning. -/
theorem c1_bucket_selection_witness :
    storageResolve "dev"
      [("dev_bucket_name", ⟨some "x"⟩), ("prod_bucket_name", ⟨some "y"⟩)] =
      .selected "x" false ∧
    storageResolve "staging" [("bucket_main", ⟨some "z"⟩)] =
      .selected "z" true := by
  constructor
  · have h := (c1_bucket_selection "dev"
      [("dev_bucket_name", ⟨some "x"⟩), ("prod_bucket_name", ⟨some "y"⟩)]).1
      ("dev_bucket_name", "x") (by decide)
    exact h
  · have h := (c1_bucket_selection "staging" [("bucket_main", ⟨some "z"⟩)]).2
      ("bucket_main", "z") [] (by decide) (by decide)
    exact h

/-- C10: bucket-candidate extraction keeps exactly the outputs whose key
contains "bucket" case-insensitively and whose value record is truthy —
an output whose value is missing, null, or the empty string is excluded —
so a state whose bucket-keyed outputs all have falsy values yields no
candidates and bucket resolution fails with the no-storage-buckets
error. -/
theorem c10_falsy_bucket_outputs (outputs : List (String × TfOutput))
    (environment : String) :
    (∀ k v, (k, v) ∈ getBucketNames outputs ↔
      (strContains (pyLower k) "bucket" = true ∧ v ≠ "" ∧
        (k, ⟨some v⟩) ∈ outputs)) ∧
    ((∀ k o, (k, o) ∈ outputs → strContains (pyLower k) "bucket" = true →
        o.value = none ∨ o.value = some "") →
      storageResolve environment outputs =
        .noBuckets ("No storage buckets found in terraform state for " ++
          environment ++ " environment")) := by
  constructor
  · intro k v
    simp only [getBucketNames, List.mem_filterMap]
    constructor
    · rintro ⟨⟨k2, o⟩, hmem, hf⟩
      dsimp only at hf
      split at hf
      case isTrue hb =>
        obtain ⟨oval⟩ := o
        cases hv : oval with
        | none => rw [hv] at hf; simp at hf
        | some w =>
          rw [hv] at hf
          by_cases hw : w = ""
          · simp [hw] at hf
          · simp only [hw, if_false] at hf
            obtain ⟨hk, hvv⟩ := Prod.mk.injEq .. ▸ Option.some.inj hf
            subst hk
            subst hvv
            subst hv
            exact ⟨hb, hw, hmem⟩
      case isFalse hb => simp at hf
    · rintro ⟨hb, hv, hmem⟩
      exact ⟨(k, ⟨some v⟩), hmem, by simp [hb, hv]⟩
  · intro hall
    have hnil : getBucketNames outputs = [] := by
      simp only [getBucketNames]
      rw [List.filterMap_eq_nil_iff]
      rintro ⟨k, o⟩ ha
      by_cases hb : strContains (pyLower k) "bucket" = true
      · rcases hall k o ha hb with hv | hv <;> simp [hv, hb]
      · simp [hb]
    simp only [storageResolve]
    rw [hnil]

/-- Witness for C10: a state whose only bucket-keyed outputs carry the
empty string and a missing value resolves to the no-storage-buckets
error. -/
theorem c10_falsy_bucket_outputs_witness :
    storageResolve "dev" [("data_bucket", ⟨some ""⟩), ("bucket_two", ⟨none⟩)] =
      .noBuckets ("No storage buckets found in terraform state for " ++
        "dev" ++ " environment") := by
  refine (c10_falsy_bucket_outputs
    [("data_bucket", ⟨some ""⟩), ("bucket_two", ⟨none⟩)] "dev").2 ?_
  intro k o hmem hb
  rcases List.mem_cons.mp hmem with h | h
  · injection h with h1 h2
    subst h2
    right; rfl
  · rcases List.mem_cons.mp h with h | h
    · injection h with h1 h2
      subst h2
      left; rfl
    · simp at h

/-! ### Grouping lemmas for the StateLoader accessors -/

theorem lookupGroups_cons (k3 : Option String) (rs : List ResourceBlock)
    (rest : List (Option String × List ResourceBlock)) (k2 : Option String) :
    lookupGroups ((k3, rs) :: rest) k2 =
      if k3 = k2 then some rs else lookupGroups rest k2 := by
  by_cases h : k3 = k2
  · simp [lookupGroups, List.find?, beq_iff_eq.mpr h, h]
  · simp [lookupGroups, List.find?, beq_eq_false_iff_ne.mpr h, h]

theorem lookupGroups_addToGroups (g : List (Option String × List ResourceBlock))
    (k : Option String) (r : ResourceBlock) (k2 : Option String) :
    lookupGroups (addToGroups g k r) k2 =
      if k2 = k then some ((lookupGroups g k).getD [] ++ [r])
      else lookupGroups g k2 := by
  induction g with
  | nil =>
    have h0 : addToGroups [] k r = [(k, [r])] := rfl
    rw [h0, lookupGroups_cons]
    by_cases h : k2 = k
    · subst h
      simp [lookupGroups]
    · simp [lookupGroups, h, Ne.symm h]
  | cons kv rest ih =>
    obtain ⟨k3, rs⟩ := kv
    by_cases h3 : k3 = k
    · subst h3
      simp only [addToGroups, beq_self_eq_true, if_true]
      simp only [lookupGroups_cons]
      by_cases h : k3 = k2
      · subst h
        simp
      · have h2 : ¬ k2 = k3 := fun hh => h hh.symm
        simp [h, h2]
    · simp only [addToGroups, beq_eq_false_iff_ne.mpr h3, Bool.false_eq_true,
        if_false]
      simp only [lookupGroups_cons]
      rw [ih]
      by_cases h : k3 = k2
      · subst h
        simp [h3]
      · by_cases hk : k2 = k
        · subst hk
          simp [h, h3, fun hh : k3 = k2 => h hh]
        · simp [h, hk]

theorem lookupGroups_foldl (blocks : List ResourceBlock)
    (acc : List (Option String × List ResourceBlock)) (k : Option String) :
    (lookupGroups (blocks.foldl (fun a r => addToGroups a r.type r) acc) k).getD [] =
      (lookupGroups acc k).getD [] ++ blocks.filter (fun r => r.type == k) := by
  induction blocks generalizing acc with
  | nil => simp
  | cons r rest ih =>
    simp only [List.foldl_cons, List.filter_cons]
    rw [ih]
    rw [lookupGroups_addToGroups]
    by_cases h : k = r.type
    · simp [h, beq_iff_eq.mpr h.symm, List.append_assoc]
    · simp [h, beq_eq_false_iff_ne.mpr (Ne.symm h)]

theorem getResourceInstances_eq_filter (blocks : List ResourceBlock)
    (resourceType : String) :
    getResourceInstances blocks resourceType =
      blocks.filter (fun r => r.type == some resourceType) := by
  have h := lookupGroups_foldl blocks [] (some resourceType)
  simpa [getResourceInstances, groupResources, lookupGroups] using h

/-! ### C6: find_resources_by_name -/

/-- C6: `find_resources_by_name(type, name)` returns exactly the entries
of the given resource type whose `name` or `address` field equals the
given name, in their original order and all of them; with zero matches it
returns the empty list (it is a total function and never fails). -/
theorem c6_find_by_name (blocks : List ResourceBlock) (resourceType nm : String) :
    (findResourcesByName blocks resourceType nm =
      blocks.filter (fun r => r.type == some resourceType &&
        (r.name == some nm || r.address == some nm))) ∧
    (∀ r, r ∈ findResourcesByName blocks resourceType nm ↔
      (r ∈ blocks ∧ r.type = some resourceType ∧
        (r.name = some nm ∨ r.address = some nm))) ∧
    ((∀ r ∈ blocks, r.type = some resourceType →
        r.name ≠ some nm ∧ r.address ≠ some nm) →
      findResourcesByName blocks resourceType nm = []) := by
  have heq : findResourcesByName blocks resourceType nm =
      blocks.filter (fun r => r.type == some resourceType &&
        (r.name == some nm || r.address == some nm)) := by
    rw [findResourcesByName, getResourceInstances_eq_filter, List.filter_filter]
    exact List.filter_congr (fun a _ => Bool.and_comm ..)
  refine ⟨heq, ?_, ?_⟩
  · intro r
    rw [heq, List.mem_filter]
    simp
  · intro hall
    rw [heq, List.filter_eq_nil_iff]
    intro r hr
    by_cases ht : r.type = some resourceType
    · obtain ⟨h1, h2⟩ := hall r hr ht
      simp [ht, h1, h2]
    · simp [ht]

/-- Witness for C6: a state with two entries of the type but neither
named `zzz` yields the empty list. -/
theorem c6_find_by_name_witness :
    findResourcesByName
      [{ type := some "t", name := some "r1", address := none, instances := [] },
       { type := some "t", name := some "r2", address := none, instances := [] }]
      "t" "zzz" = [] :=
  (c6_find_by_name
    [{ type := some "t", name := some "r1", address := none, instances := [] },
     { type := some "t", name := some "r2", address := none, instances := [] }]
    "t" "zzz").2.2 (by decide)

/-! ### C7: get_google_storage_buckets -/

theorem lookupAssoc_cons {β : Type} (k3 : String) (v3 : β)
    (rest : List (String × β)) (k2 : String) :
    lookupAssoc ((k3, v3) :: rest) k2 =
      if k3 = k2 then some v3 else lookupAssoc rest k2 := by
  by_cases h : k3 = k2
  · simp [lookupAssoc, List.find?, beq_iff_eq.mpr h, h]
  · simp [lookupAssoc, List.find?, beq_eq_false_iff_ne.mpr h, h]

theorem lookupAssoc_dictInsert {β : Type} (m : List (String × β)) (k : String)
    (v : β) (k2 : String) :
    lookupAssoc (dictInsert m k v) k2 =
      if k2 = k then some v else lookupAssoc m k2 := by
  induction m with
  | nil =>
    have h0 : dictInsert ([] : List (String × β)) k v = [(k, v)] := rfl
    rw [h0, lookupAssoc_cons]
    by_cases h : k2 = k
    · simp [h]
    · simp [h, Ne.symm h]
  | cons kv rest ih =>
    obtain ⟨k3, v3⟩ := kv
    by_cases h3 : k3 = k
    · subst h3
      simp only [dictInsert, beq_self_eq_true, if_true]
      simp only [lookupAssoc_cons]
      by_cases h : k2 = k3
      · simp [h]
      · have h2 : ¬ k3 = k2 := fun hh => h hh.symm
        simp [h, h2]
    · simp only [dictInsert, beq_eq_false_iff_ne.mpr h3, Bool.false_eq_true,
        if_false]
      simp only [lookupAssoc_cons]
      rw [ih]
      by_cases h : k3 = k2
      · subst h
        simp [h3]
      · by_cases hk : k2 = k
        · simp [h, hk, h3]
        · simp [h, hk]

theorem addBucketInsts_foldl (b : List (String × List (String × String)))
    (blk : ResourceBlock) :
    addBucketInsts b blk = blk.instances.foldl insertBucketInstance b := by
  unfold addBucketInsts
  cases h : blk.instances with
  | nil => simp [h]
  | cons i is => simp [h]

theorem foldl_addBucketInsts (blocks : List ResourceBlock)
    (b : List (String × List (String × String))) :
    blocks.foldl addBucketInsts b =
      (blocks.flatMap (fun r => r.instances)).foldl insertBucketInstance b := by
  induction blocks generalizing b with
  | nil => rfl
  | cons blk rest ih =>
    simp only [List.foldl_cons, List.flatMap_cons, List.foldl_append]
    rw [addBucketInsts_foldl, ih]

theorem lookupAssoc_foldl_insert (k : String) (insts : List TfInstance)
    (b : List (String × List (String × String))) :
    lookupAssoc (insts.foldl insertBucketInstance b) k =
      match (insts.filter (fun i =>
          lookupAssoc i.attributes "name" == some k && k != "")).getLast? with
      | some i => some i.attributes
      | none => lookupAssoc b k := by
  induction insts using List.reverseRecOn with
  | nil => rfl
  | append_singleton l i ih =>
    rw [List.foldl_append, List.filter_append]
    by_cases hp : (lookupAssoc i.attributes "name" == some k && k != "") = true
    · obtain ⟨hn, hk⟩ := Bool.and_eq_true .. |>.mp hp
      have hn2 : lookupAssoc i.attributes "name" = some k := beq_iff_eq.mp hn
      have hk2 : k ≠ "" := bne_iff_ne .. |>.mp hk
      simp only [List.filter_cons, hp, if_true, List.filter_nil,
        List.getLast?_concat]
      simp only [List.foldl_cons, List.foldl_nil]
      simp only [insertBucketInstance, hn2]
      rw [if_neg hk2, lookupAssoc_dictInsert, if_pos rfl]
    · simp only [List.filter_cons, hp, Bool.false_eq_true, if_false,
        List.filter_nil, List.append_nil]
      simp only [List.foldl_cons, List.foldl_nil]
      have hstep : lookupAssoc
          (insertBucketInstance (l.foldl insertBucketInstance b) i) k =
          lookupAssoc (l.foldl insertBucketInstance b) k := by
        cases hn : lookupAssoc i.attributes "name" with
        | none => simp [insertBucketInstance, hn]
        | some nm =>
          by_cases hnm : nm = ""
          · simp [insertBucketInstance, hn, hnm]
          · have hkne : k ≠ nm := by
              intro hkeq
              subst hkeq
              exact hp (by simp [hn, hnm])
            simp only [insertBucketInstance, hn, if_neg hnm]
            rw [lookupAssoc_dictInsert, if_neg hkne]
      rw [hstep, ih]

/-- C7: the map produced by `storage_buckets()` is keyed by the `name`
attributes of the instances of the `google_storage_bucket` resource type;
an instance without a non-empty `name` attribute is skipped, and for a
duplicate name the attributes of the last-seen instance win (overwrite,
not append): looking up any key yields the attributes of the last
instance carrying that non-empty name.  One `google_storage_bucket`
resource with two instances named `a` and `b` produces the two-entry map
keyed by `a` and `b`. -/
theorem c7_storage_buckets (blocks : List ResourceBlock) (k : String) :
    (lookupAssoc (getGoogleStorageBuckets blocks) k =
      (((getResourceInstances blocks "google_storage_bucket").flatMap
          (fun r => r.instances)).filter
        (fun i => lookupAssoc i.attributes "name" == some k &&
          k != "")).getLast?.map (fun i => i.attributes)) ∧
    getGoogleStorageBuckets
      [{ type := some "google_storage_bucket", name := some "buckets",
         address := none,
         instances := [⟨[("name", "a")]⟩, ⟨[("name", "b")]⟩] }] =
      [("a", [("name", "a")]), ("b", [("name", "b")])] := by
  constructor
  · rw [getGoogleStorageBuckets, foldl_addBucketInsts, lookupAssoc_foldl_insert]
    cases hl : (((getResourceInstances blocks "google_storage_bucket").flatMap
        (fun r => r.instances)).filter
      (fun i => lookupAssoc i.attributes "name" == some k &&
        k != "")).getLast? with
    | none => rfl
    | some i => rfl
  · decide

end Databot
